import Mathlib

/-!
Verification of the Daria personal-finance assistant's core subsystem
(currency codec, keyword query interpreter, transaction store, conversation
orchestrator reply formatting, and the HTTP transaction-creation endpoint)
against its natural-language specification.

The Python sources are shallowly embedded:
* decimal amounts (Python `Decimal`, and decimal literals arriving as
  `str`/`float` that round-trip through `Decimal(str(x))`) are modelled by
  their exact value in `ℚ`;
* cent amounts are `ℤ`;
* timestamps are abstract integers;
* fallible code returns `Except String α`, carrying the Python exception
  message;
* the relational table is a list of rows plus a counter for the SERIAL id,
  and SQL aggregate semantics (one row is always returned; SUM/AVG over an
  empty set are NULL, COUNT is 0) are embedded directly;
* IEEE-754 binary64 arithmetic (used only by the HTTP endpoint's
  `int(request.amount * 100)` conversion) is modelled exactly on `ℚ` by
  round-to-nearest-even at 53 significant bits.
-/

namespace Daria

/-- Whether an `Except` computation succeeded (Python: no exception raised). -/
def isOkB {α : Type} : Except String α → Bool
  | .ok _ => true
  | .error _ => false

/-! ## Currency Codec — src/utils.py -/

/-- `Decimal.quantize(Decimal("1"), rounding=ROUND_HALF_UP)`: round to the
nearest integer, ties away from zero. -/
def roundHalfUp (q : ℚ) : ℤ :=
  if 0 ≤ q then ⌊q + 1/2⌋ else -⌊-q + 1/2⌋

/-- `utils.dollars_to_cents`: the input (str / float / Decimal) is parsed to
an exact decimal (`Decimal(str(amount))` recovers the decimal literal of a
float), multiplied by 100 and rounded half-up (away from zero). -/
def dollars_to_cents (amount : ℚ) : ℤ :=
  roundHalfUp (amount * 100)

/-- `utils.cents_to_dollars`: exact division by 100, as `Decimal`. -/
def cents_to_dollars (amount_cents : ℤ) : ℚ :=
  (amount_cents : ℚ) / 100

/-- The kind of value Python's `validate_amount` receives: an `int` is taken
to be cents already; any other numeric (float / str / Decimal) is a decimal
major-unit amount. -/
inductive PyNumber where
  | int (n : ℤ)
  | dec (d : ℚ)
deriving DecidableEq

/-- The cents value `utils.validate_amount` computes from its argument:
an `int` is used as-is, anything else goes through `dollars_to_cents`. -/
def centsOfNumber : PyNumber → ℤ
  | .int n => n
  | .dec d => dollars_to_cents d

/-- `utils.validate_amount`: rejects a negative cents value and a cents value
above 999999999; the raised `ValueError` message is re-wrapped as
`"Invalid amount: ..."` by the function's own `except` clause. -/
def validate_amount (amount : PyNumber) : Except String Bool :=
  if centsOfNumber amount < 0 then .error "Invalid amount: Amount cannot be negative"
  else if 999999999 < centsOfNumber amount then
    .error "Invalid amount: Amount exceeds maximum limit"
  else .ok true

/-! ### Arithmetic lemmas about the codec's rounding -/

theorem roundHalfUp_neg (q : ℚ) : roundHalfUp (-q) = -roundHalfUp q := by
  unfold roundHalfUp
  rcases lt_trichotomy q 0 with h | h | h
  · rw [if_pos (by linarith : (0:ℚ) ≤ -q), if_neg (by linarith : ¬ (0:ℚ) ≤ q), neg_neg]
  · subst h
    have hz : ⌊(2⁻¹ : ℚ)⌋ = 0 := by
      rw [Int.floor_eq_iff]
      norm_num
    rw [neg_zero]
    simp [hz]
  · rw [if_neg (by linarith : ¬ (0:ℚ) ≤ -q), if_pos (by linarith : (0:ℚ) ≤ q), neg_neg]

theorem roundHalfUp_intCast (k : ℤ) : roundHalfUp (k : ℚ) = k := by
  have h1 : ⌊(k : ℚ) + 1/2⌋ = k := by
    rw [Int.floor_eq_iff]
    constructor <;> push_cast <;> linarith
  have h2 : ⌊-(k : ℚ) + 1/2⌋ = -k := by
    rw [Int.floor_eq_iff]
    constructor <;> push_cast <;> linarith
  unfold roundHalfUp
  split
  · exact h1
  · rw [h2, neg_neg]

/-- The rounded value is within half a unit of the exact value. -/
theorem abs_roundHalfUp_sub_le (q : ℚ) : |(roundHalfUp q : ℚ) - q| ≤ 1/2 := by
  have base : ∀ r : ℚ, 0 ≤ r → |(roundHalfUp r : ℚ) - r| ≤ 1/2 := by
    intro r hr
    have hfl : (⌊r + 1/2⌋ : ℚ) ≤ r + 1/2 := Int.floor_le _
    have hfl' : r + 1/2 < (⌊r + 1/2⌋ : ℚ) + 1 := Int.lt_floor_add_one _
    rw [roundHalfUp, if_pos hr, abs_le]
    constructor <;> linarith
  rcases le_or_lt 0 q with h | h
  · exact base q h
  · have h' := base (-q) (by linarith)
    rw [roundHalfUp_neg] at h'
    have heq : ((-roundHalfUp q : ℤ) : ℚ) - -q = -((roundHalfUp q : ℚ) - q) := by
      push_cast
      ring
    rwa [heq, abs_neg] at h'

/-- Ties go away from zero: any integer at most half a unit from the exact
value has absolute value at most that of the rounded value. -/
theorem roundHalfUp_abs_max (q : ℚ) (n : ℤ) (hn : |(n : ℚ) - q| ≤ 1/2) :
    |n| ≤ |roundHalfUp q| := by
  have base : ∀ (r : ℚ) (m : ℤ), 0 ≤ r → |(m : ℚ) - r| ≤ 1/2 → |m| ≤ |roundHalfUp r| := by
    intro r m hr hm
    rw [abs_le] at hm
    have hm1 : (m : ℚ) ≤ r + 1/2 := by linarith
    have hmle : m ≤ ⌊r + 1/2⌋ := Int.le_floor.mpr hm1
    have hm0 : 0 ≤ m := by
      have hq : (-1 : ℚ) < (m : ℚ) := by linarith
      have : (-1 : ℤ) < m := by exact_mod_cast hq
      omega
    have hc0 : 0 ≤ ⌊r + 1/2⌋ := Int.le_floor.mpr (by push_cast; linarith)
    rw [roundHalfUp, if_pos hr, abs_of_nonneg hm0, abs_of_nonneg hc0]
    exact hmle
  rcases le_or_lt 0 q with h | h
  · exact base q n h hn
  · have heq : ((-n : ℤ) : ℚ) - -q = -((n : ℚ) - q) := by push_cast; ring
    have h' : |((-n : ℤ) : ℚ) - -q| ≤ 1/2 := by rw [heq, abs_neg]; exact hn
    have := base (-q) (-n) (by linarith) h'
    rwa [roundHalfUp_neg, abs_neg, abs_neg] at this

/-- `dollars_to_cents` is exact on amounts with at most two fractional
digits. -/
theorem dollars_to_cents_hundredths (k : ℤ) :
    dollars_to_cents ((k : ℚ) / 100) = k := by
  unfold dollars_to_cents
  rw [div_mul_cancel₀ _ (by norm_num : (100:ℚ) ≠ 0), roundHalfUp_intCast]

/-- C3. For every decimal input `d` with at most 2 fractional digits (i.e.
`d = k/100` for an integer `k`), converting to minor units and back is the
identity: `cents_to_dollars (dollars_to_cents d) = d` exactly. -/
theorem currency_roundtrip_two_fractional_digits (d : ℚ) (k : ℤ)
    (hk : d = (k : ℚ) / 100) :
    cents_to_dollars (dollars_to_cents d) = d := by
  subst hk
  rw [dollars_to_cents_hundredths, cents_to_dollars]

/-- Witness for C3 at `d = 12.34`. -/
theorem currency_roundtrip_two_fractional_digits_witness :
    cents_to_dollars (dollars_to_cents ((1234 : ℚ) / 100)) = (1234 : ℚ) / 100 :=
  currency_roundtrip_two_fractional_digits ((1234 : ℚ) / 100) 1234 (by norm_num)

theorem dollars_to_cents_10555 : dollars_to_cents (10555 / 1000) = 1056 := by
  unfold dollars_to_cents roundHalfUp
  rw [if_pos (by norm_num), Int.floor_eq_iff]
  norm_num

theorem dollars_to_cents_10554 : dollars_to_cents (10554 / 1000) = 1055 := by
  unfold dollars_to_cents roundHalfUp
  rw [if_pos (by norm_num), Int.floor_eq_iff]
  norm_num

/-- C4. `dollars_to_cents` multiplies by 100 and rounds half-away-from-zero
to the nearest integer (through exact decimal arithmetic, so no binary
floating-point error): the result is within half a cent of `100·d`, any
equally-near integer has absolute value at most the result's (ties away from
zero), and concretely `10.555 ↦ 1056`, `10.554 ↦ 1055`. -/
theorem dollars_to_cents_round_half_away (d : ℚ) (n : ℤ)
    (hn : |(n : ℚ) - d * 100| ≤ 1/2) :
    |(dollars_to_cents d : ℚ) - d * 100| ≤ 1/2 ∧ |n| ≤ |dollars_to_cents d| ∧
      dollars_to_cents (10555 / 1000) = 1056 ∧ dollars_to_cents (10554 / 1000) = 1055 :=
  ⟨abs_roundHalfUp_sub_le (d * 100), roundHalfUp_abs_max (d * 100) n hn,
    dollars_to_cents_10555, dollars_to_cents_10554⟩

/-- Witness for C4 at `d = 10.555`, `n = 1056` (a tie: `100·d = 1055.5`). -/
theorem dollars_to_cents_round_half_away_witness :
    |(dollars_to_cents (10555 / 1000) : ℚ) - (10555 / 1000) * 100| ≤ 1/2 ∧
      |(1056 : ℤ)| ≤ |dollars_to_cents (10555 / 1000)| ∧
      dollars_to_cents (10555 / 1000) = 1056 ∧ dollars_to_cents (10554 / 1000) = 1055 :=
  dollars_to_cents_round_half_away (10555 / 1000) 1056 (by
    rw [abs_le]
    constructor <;> norm_num)

theorem dollars_to_cents_neg_cent : dollars_to_cents (-1/100) = -1 := by
  have h := dollars_to_cents_hundredths (-1)
  push_cast at h
  exact h

/-- C5. `validate_amount` succeeds exactly when the minor-unit value is
neither negative nor above 999999999; an integer argument is taken as cents
without re-conversion (so validating `.int n` constrains `n` itself), a
non-integer argument is first converted from major units; and concretely
`-0.01` and cents `1000000000` fail while cents `999999999` succeeds. -/
theorem validate_amount_bounds (a : PyNumber) (n : ℤ) (d : ℚ) :
    (isOkB (validate_amount a) = true ↔
       0 ≤ centsOfNumber a ∧ centsOfNumber a ≤ 999999999) ∧
    (isOkB (validate_amount (.int n)) = true ↔ 0 ≤ n ∧ n ≤ 999999999) ∧
    (validate_amount (.dec d) = validate_amount (.int (dollars_to_cents d))) ∧
    isOkB (validate_amount (.dec (-1/100))) = false ∧
    isOkB (validate_amount (.int 1000000000)) = false ∧
    isOkB (validate_amount (.int 999999999)) = true := by
  have hgen : ∀ b : PyNumber, isOkB (validate_amount b) = true ↔
      0 ≤ centsOfNumber b ∧ centsOfNumber b ≤ 999999999 := by
    intro b
    unfold validate_amount
    split_ifs with h1 h2
    · simp only [isOkB, Bool.false_eq_true, false_iff, not_and, not_le]
      intro
      omega
    · simp only [isOkB, Bool.false_eq_true, false_iff, not_and, not_le]
      intro
      omega
    · simp only [isOkB, true_iff]
      omega
  refine ⟨hgen a, by simpa [centsOfNumber] using hgen (.int n), rfl, ?_, rfl, rfl⟩
  have h := hgen (.dec (-1/100))
  simp only [centsOfNumber, dollars_to_cents_neg_cent] at h
  cases hb : isOkB (validate_amount (.dec (-1/100)))
  · rfl
  · exfalso
    exact absurd (h.mp hb).1 (by norm_num)

/-! ## Query Interpreter — src/financial_agent_new.py, `FinancialAgent._parse_query` -/

/-- `str.lower` on the ASCII letters these utterances use. -/
def lowerChar (c : Char) : Char :=
  if 'A' ≤ c ∧ c ≤ 'Z' then Char.ofNat (c.toNat + 32) else c

/-- `query.lower()`, as a character list. -/
def toLowerChars (s : String) : List Char :=
  s.toList.map lowerChar

/-- Whether `pat` is a prefix of `s` (character-wise). -/
def isPrefixC : List Char → List Char → Bool
  | [], _ => true
  | _ :: _, [] => false
  | p :: ps, c :: cs => p == c && isPrefixC ps cs

/-- Whether `pat` occurs contiguously in `s`: Python's `pat in s`. -/
def containsSub (pat : List Char) : List Char → Bool
  | [] => isPrefixC pat []
  | c :: cs => isPrefixC pat (c :: cs) || containsSub pat cs

/-- Python `keyword in query_lower`. -/
def keywordIn (kw : String) (q : List Char) : Bool :=
  containsSub kw.toList q

/-- Python `any(word in query_lower for word in words)`. -/
def anyKeywordIn (words : List String) (q : List Char) : Bool :=
  words.any (fun w => keywordIn w q)

/-- The `category_mapping` dict of `_parse_query`, in its insertion
(= iteration) order. -/
def category_mapping : List (String × List String) :=
  [("technology", ["tech", "computer", "laptop", "software", "technology"]),
   ("food", ["food", "restaurant", "coffee", "lunch", "dinner", "breakfast", "groceries"]),
   ("shopping", ["shopping", "clothes", "amazon", "store", "purchase"]),
   ("transportation", ["uber", "lyft", "gas", "fuel", "transportation", "car"]),
   ("entertainment", ["movie", "netflix", "spotify", "entertainment"]),
   ("health", ["medical", "doctor", "pharmacy", "health"]),
   ("utilities", ["electricity", "water", "internet", "phone", "utilities"])]

/-- The `for category, keywords in category_mapping.items(): ... break` loop:
the first group with a matching keyword wins. -/
def detectCategory : List (String × List String) → List Char → Option String
  | [], _ => none
  | (cat, kws) :: rest, q =>
      if anyKeywordIn kws q then some cat else detectCategory rest q

/-- The `filters` sub-dict of the structured query parameters. -/
structure Filters where
  category : Option String
  type : Option String
  date_range : Option String
deriving DecidableEq

/-- The structured query parameters `_parse_query` returns (the ephemeral
QuerySpec; `limit` is absent from the dict the parser builds). -/
structure QuerySpec where
  filters : Filters
  aggregations : List String
  sort_by : String
  sort_order : String
deriving DecidableEq

/-- `FinancialAgent._parse_query` (src/financial_agent_new.py): keyword-rule
translation of a free-text request into a QuerySpec. -/
def _parse_query (query : String) : QuerySpec :=
  let query_lower := toLowerChars query
  let detected_category := detectCategory category_mapping query_lower
  let query_type :=
    if anyKeywordIn ["spent", "spending", "expense", "cost"] query_lower then some "expense"
    else if anyKeywordIn ["earned", "income", "salary", "revenue"] query_lower then some "income"
    else none
  let aggregations :=
    if anyKeywordIn ["total", "sum", "how much"] query_lower then ["sum"]
    else if anyKeywordIn ["average", "avg"] query_lower then ["average"]
    else if anyKeywordIn ["count", "how many"] query_lower then ["count"]
    else []
  let date_range :=
    if anyKeywordIn ["this month", "month", "current month"] query_lower then some "this_month"
    else none
  { filters := { category := detected_category, type := query_type, date_range := date_range },
    aggregations := aggregations,
    sort_by := "date",
    sort_order := "desc" }

/-- C2 counterexample. On "How much did I spend on food this month?" the
parser leaves `type` unset: no word of `["spent", "spending", "expense",
"cost"]` occurs in the lower-cased utterance ("spend" is none of them), so
the claimed QuerySpec (with `type = "expense"`) is not produced. -/
theorem parse_query_food_month_cex :
    _parse_query "How much did I spend on food this month?" ≠
      { filters := { category := some "food", type := some "expense",
                     date_range := some "this_month" },
        aggregations := ["sum"], sort_by := "date", sort_order := "desc" } := by
  decide

/-- C2 (amended). On "How much did I spend on food this month?" the parser
produces category `food`, `type` unset, date range `this_month`, and
aggregations exactly `["sum"]`. -/
theorem parse_query_food_month :
    _parse_query "How much did I spend on food this month?" =
      { filters := { category := some "food", type := none,
                     date_range := some "this_month" },
        aggregations := ["sum"], sort_by := "date", sort_order := "desc" } := by
  decide

theorem detectCategory_first_match (l : List (String × List String)) (q : List Char)
    (c : String) (h : detectCategory l q = some c) :
    ∃ kws pre post, l = pre ++ (c, kws) :: post ∧ anyKeywordIn kws q = true ∧
      ∀ p ∈ pre, anyKeywordIn p.2 q = false := by
  induction l with
  | nil => simp [detectCategory] at h
  | cons hd tl ih =>
    obtain ⟨cat, kws⟩ := hd
    by_cases hm : anyKeywordIn kws q = true
    · rw [detectCategory, if_pos hm] at h
      obtain rfl : cat = c := by injection h
      exact ⟨kws, [], tl, rfl, hm, by simp⟩
    · have hm' : anyKeywordIn kws q = false := by
        cases hv : anyKeywordIn kws q
        · rfl
        · exact absurd hv hm
      rw [detectCategory, if_neg (by simp [hm'])] at h
      obtain ⟨kws', pre, post, heq, hany, hpre⟩ := ih h
      refine ⟨kws', (cat, kws) :: pre, post, by rw [heq]; rfl, hany, ?_⟩
      intro p hp
      rcases List.mem_cons.mp hp with rfl | hp'
      · exact hm'
      · exact hpre p hp'

/-- C7. Category detection stops at the first keyword group in the fixed
priority order (everything before the detected group fails to match), and at
most one aggregation is selected, the first cue winning: sum cues beat
average cues, which beat count cues. -/
theorem parse_query_first_match (query : String) :
    ((_parse_query query).aggregations.length ≤ 1) ∧
    (anyKeywordIn ["total", "sum", "how much"] (toLowerChars query) = true →
      (_parse_query query).aggregations = ["sum"]) ∧
    (anyKeywordIn ["total", "sum", "how much"] (toLowerChars query) = false →
      anyKeywordIn ["average", "avg"] (toLowerChars query) = true →
      (_parse_query query).aggregations = ["average"]) ∧
    (anyKeywordIn ["total", "sum", "how much"] (toLowerChars query) = false →
      anyKeywordIn ["average", "avg"] (toLowerChars query) = false →
      anyKeywordIn ["count", "how many"] (toLowerChars query) = true →
      (_parse_query query).aggregations = ["count"]) ∧
    (∀ c : String, (_parse_query query).filters.category = some c →
      ∃ kws pre post, category_mapping = pre ++ (c, kws) :: post ∧
        anyKeywordIn kws (toLowerChars query) = true ∧
        ∀ p ∈ pre, anyKeywordIn p.2 (toLowerChars query) = false) := by
  refine ⟨?_, ?_, ?_, ?_, ?_⟩
  · unfold _parse_query
    dsimp only
    split_ifs <;> simp
  · intro h
    unfold _parse_query
    dsimp only
    rw [if_pos h]
  · intro h1 h2
    unfold _parse_query
    dsimp only
    rw [if_neg (by simp [h1]), if_pos h2]
  · intro h1 h2 h3
    unfold _parse_query
    dsimp only
    rw [if_neg (by simp [h1]), if_neg (by simp [h2]), if_pos h3]
  · intro c hc
    apply detectCategory_first_match category_mapping (toLowerChars query) c
    exact hc

/-! ## Transaction Store — src/database.py, `DatabaseClient` -/

/-- A stored row of the `transactions` table. -/
structure Transaction where
  id : ℤ
  amount : ℤ
  description : String
  category : String
  type : String
  date : ℤ
  created_at : ℤ
  updated_at : ℤ
deriving DecidableEq

/-- A row as handed back to Python: the stored row plus the derived
`amount_dollars` annotation added by the client. -/
structure TxRecord extends Transaction where
  amount_dollars : ℚ
deriving DecidableEq

/-- The `transaction_data` dict passed to `insert_transaction`: each key may
be absent. -/
structure TxInsertData where
  amount : Option ℤ
  description : Option String
  category : Option String
  type : Option String
  date : Option ℤ
deriving DecidableEq

/-- The database's state and clock: the stored rows, the next SERIAL id,
`NOW()`, and the current month's window used by `DATE_TRUNC('month',
CURRENT_DATE)` filtering. -/
structure DBState where
  rows : List Transaction
  nextId : ℤ
  now : ℤ
  monthStart : ℤ
  monthNext : ℤ
deriving DecidableEq

/-- The table's `CHECK (type IN ('expense', 'income'))` constraint. -/
def transaction_types : List String := ["expense", "income"]

/-- The `ValueError` raised for a missing field, re-wrapped by the client's
`except` clause. -/
def missingFieldMsg (f : String) : String :=
  "Error inserting transaction: Missing required field: " ++ f

/-- Representative text of the `psycopg2` error raised when the insert
violates the table's type CHECK constraint, re-wrapped likewise. -/
def checkViolationMsg : String :=
  "Error inserting transaction: new row for relation transactions violates check constraint"

/-- `DatabaseClient.insert_transaction`: validates field presence (in the
`required_fields` order), defaults `date` to now, inserts with
`created_at = updated_at = NOW()`, and returns the row annotated with
`amount_dollars`. A type outside the CHECK constraint makes the INSERT fail. -/
def insert_transaction (td : TxInsertData) (st : DBState) :
    Except String (TxRecord × DBState) :=
  match td.amount, td.description, td.category, td.type with
  | none, _, _, _ => .error (missingFieldMsg "amount")
  | some _, none, _, _ => .error (missingFieldMsg "description")
  | some _, some _, none, _ => .error (missingFieldMsg "category")
  | some _, some _, some _, none => .error (missingFieldMsg "type")
  | some a, some de, some cat, some ty =>
    if ty ∈ transaction_types then
      let row : Transaction :=
        { id := st.nextId, amount := a, description := de, category := cat, type := ty,
          date := td.date.getD st.now, created_at := st.now, updated_at := st.now }
      .ok (⟨row, cents_to_dollars a⟩,
        { st with rows := st.rows ++ [row], nextId := st.nextId + 1 })
    else .error checkViolationMsg

/-- A SQL value as seen through the Python driver: integer, numeric
(`Decimal`), or NULL (`None`). -/
inductive Value where
  | int (n : ℤ)
  | dec (q : ℚ)
  | vnull
deriving DecidableEq

/-- Python truthiness of a driver value (`None` and `0` are falsy). -/
def Value.truthy : Value → Bool
  | .int n => n != 0
  | .dec q => q != 0
  | .vnull => false

/-- Python `int(x)`: truncation toward zero. (`int(None)` would raise, but
every use below is guarded by a truthiness check.) -/
def truncQ (q : ℚ) : ℤ :=
  if 0 ≤ q then ⌊q⌋ else ⌈q⌉

/-- The integer a driver value converts to under Python `int(...)`. -/
def Value.toIntTrunc : Value → ℤ
  | .int n => n
  | .dec q => truncQ q
  | .vnull => 0

/-- The WHERE clause built from the filters: a condition is added only for a
truthy `category`/`type` (so `None` — and an empty string — filter nothing),
and `date_range == "this_month"` bounds `date` to the current month. -/
def matchesFilters (f : Filters) (st : DBState) (t : Transaction) : Bool :=
  (match f.category with
   | some c => if c == "" then true else t.category == c
   | none => true) &&
  (match f.type with
   | some ty => if ty == "" then true else t.type == ty
   | none => true) &&
  (match f.date_range with
   | some dr =>
       if dr == "this_month" then
         decide (st.monthStart ≤ t.date) && decide (t.date < st.monthNext)
       else true
   | none => true)

/-- `SUM(amount)`: NULL over an empty set, otherwise the integer sum. -/
def sqlSum (xs : List ℤ) : Value :=
  if xs.isEmpty then .vnull else .int xs.sum

/-- `AVG(amount)`: NULL over an empty set, otherwise the exact numeric
average. -/
def sqlAvg (xs : List ℤ) : Value :=
  if xs.isEmpty then .vnull else .dec ((xs.sum : ℚ) / (xs.length : ℚ))

/-- The aggregate SELECT list, one aliased column per recognized requested
aggregation, in request order; unknown names contribute nothing. -/
def aggSelect : List String → List ℤ → List (String × Value)
  | [], _ => []
  | a :: rest, xs =>
    (if a == "sum" then [("total_amount", sqlSum xs)]
     else if a == "count" then [("count", Value.int xs.length)]
     else if a == "average" then [("average_amount", sqlAvg xs)]
     else []) ++ aggSelect rest xs

/-- Key lookup in the fetched row (a Python dict). -/
def lookupKey (d : List (String × Value)) (k : String) : Option Value :=
  (d.find? (fun p => p.1 == k)).map (fun p => p.2)

/-- The client's post-processing of the fetched aggregate row: a
`..._dollars` key is added only when the corresponding amount is present
*and truthy* (so neither for NULL nor for 0). `fetchone()` over an aggregate
SELECT always yields this one row, so the client's `{agg: 0 ...}` fallback
for a missing row is unreachable and has no counterpart here. -/
def aggPost (d : List (String × Value)) : List (String × Value) :=
  let d1 :=
    match lookupKey d "total_amount" with
    | some v =>
        if v.truthy then d ++ [("total_amount_dollars", Value.dec (cents_to_dollars v.toIntTrunc))]
        else d
    | none => d
  match lookupKey d1 "average_amount" with
  | some v =>
      if v.truthy then
        d1 ++ [("average_amount_dollars", Value.dec (cents_to_dollars v.toIntTrunc))]
      else d1
  | none => d1

/-- What `query_transactions` returns: an aggregate row (a dict) or a list
of annotated transactions. -/
inductive QueryResult where
  | aggs (d : List (String × Value))
  | rows (l : List TxRecord)
deriving DecidableEq

/-- The structured query parameters `query_transactions` accepts (`limit` is
optional and absent from what `_parse_query` builds). -/
structure QueryParams where
  filters : Filters
  aggregations : List String
  sort_by : String
  sort_order : String
  limit : Option ℕ
deriving DecidableEq

/-- The dict `_parse_query` returns, viewed as query parameters. -/
def QuerySpec.toParams (s : QuerySpec) : QueryParams :=
  { filters := s.filters, aggregations := s.aggregations,
    sort_by := s.sort_by, sort_order := s.sort_order, limit := none }

/-- Insertion step of the date sort. -/
def insertByDate (le : Transaction → Transaction → Bool) (t : Transaction) :
    List Transaction → List Transaction
  | [] => [t]
  | h :: tl => if le t h then t :: h :: tl else h :: insertByDate le t tl

/-- Sort rows by the given comparison (insertion sort; the storage engine's
ordering). -/
def sortRows (le : Transaction → Transaction → Bool) : List Transaction → List Transaction
  | [] => []
  | h :: tl => insertByDate le h (sortRows le tl)

/-- `ORDER BY {sort_by} {sort_order.upper()}`: the agent only ever passes
`sort_by = "date"`; other column names are left unmodelled (identity). -/
def orderRows (sort_by sort_order : String) (rows : List Transaction) : List Transaction :=
  if sort_by == "date" then
    if sort_order == "asc" then sortRows (fun a b => a.date ≤ b.date) rows
    else sortRows (fun a b => b.date ≤ a.date) rows
  else rows

/-- `LIMIT`, when present. -/
def applyLimit (limit : Option ℕ) (rows : List Transaction) : List Transaction :=
  match limit with
  | some n => rows.take n
  | none => rows

/-- `DatabaseClient.query_transactions`: filters, then either one aggregate
row (post-processed) or the ordered, limited row list annotated with
`amount_dollars`. An aggregation list with no recognized name yields an
empty SELECT list, a SQL syntax error. -/
def query_transactions (p : QueryParams) (st : DBState) : Except String QueryResult :=
  let matched := st.rows.filter (matchesFilters p.filters st)
  if p.aggregations.isEmpty then
    .ok (.rows ((applyLimit p.limit (orderRows p.sort_by p.sort_order matched)).map
      (fun t => ⟨t, cents_to_dollars t.amount⟩)))
  else
    let sel := aggSelect p.aggregations (matched.map (fun t => t.amount))
    if sel.isEmpty then .error "Error querying transactions: syntax error in aggregate SELECT"
    else .ok (.aggs (aggPost sel))

/-- C1 (code evaluation at the failing input). Over an empty filtered set, a
requested `sum` aggregation comes back as SQL NULL under its `total_amount`
alias — not zero — because the aggregate SELECT still returns one row and
`SUM` over no rows is NULL; a requested `count` does come back as 0. The
client's `{agg: 0}` fallback (which would realize the specified behaviour)
is dead code. -/
theorem query_sum_empty_is_null :
    query_transactions ⟨⟨none, none, none⟩, ["sum"], "date", "desc", none⟩
        ⟨[], 1, 0, 0, 0⟩ = .ok (.aggs [("total_amount", Value.vnull)]) ∧
      Value.vnull ≠ Value.int 0 ∧
      query_transactions ⟨⟨none, none, none⟩, ["count"], "date", "desc", none⟩
        ⟨[], 1, 0, 0, 0⟩ = .ok (.aggs [("count", Value.int 0)]) := by
  refine ⟨rfl, by decide, rfl⟩

/-- C6. `DatabaseClient.insert_transaction` fails when `amount`,
`description`, `category` or `type` is missing, or when `type` is outside
{expense, income} (the table's CHECK constraint); otherwise it returns the
persisted record with the store-assigned id and `created_at = updated_at =`
the insert time, and appends exactly that row. -/
theorem insert_transaction_validation (td : TxInsertData) (st : DBState) :
    ((td.amount = none ∨ td.description = none ∨ td.category = none ∨ td.type = none ∨
        (∃ ty, td.type = some ty ∧ ty ∉ transaction_types)) →
      isOkB (insert_transaction td st) = false) ∧
    (∀ a de cat ty, td.amount = some a → td.description = some de →
      td.category = some cat → td.type = some ty → ty ∈ transaction_types →
      ∃ rec st', insert_transaction td st = .ok (rec, st') ∧
        rec.id = st.nextId ∧ rec.created_at = st.now ∧ rec.updated_at = st.now ∧
        rec.created_at = rec.updated_at ∧ rec.amount = a ∧ rec.description = de ∧
        rec.category = cat ∧ rec.type = ty ∧
        rec.amount_dollars = cents_to_dollars a ∧
        st'.rows = st.rows ++ [rec.toTransaction] ∧ st'.nextId = st.nextId + 1) := by
  constructor
  · intro h
    rcases ha : td.amount with _ | a
    · simp [insert_transaction, ha, isOkB]
    rcases hde : td.description with _ | de
    · simp [insert_transaction, ha, hde, isOkB]
    rcases hcat : td.category with _ | cat
    · simp [insert_transaction, ha, hde, hcat, isOkB]
    rcases hty : td.type with _ | ty
    · simp [insert_transaction, ha, hde, hcat, hty, isOkB]
    · have hnot : ty ∉ transaction_types := by
        rcases h with h | h | h | h | ⟨ty', hty', hnot⟩
        · exact absurd ha (by rw [h]; simp)
        · exact absurd hde (by rw [h]; simp)
        · exact absurd hcat (by rw [h]; simp)
        · exact absurd hty (by rw [h]; simp)
        · rw [hty] at hty'
          injection hty' with hh
          rwa [← hh] at hnot
      simp [insert_transaction, ha, hde, hcat, hty, hnot, isOkB]
  · intro a de cat ty ha hde hcat hty hmem
    refine ⟨⟨⟨st.nextId, a, de, cat, ty, td.date.getD st.now, st.now, st.now⟩,
      cents_to_dollars a⟩,
      { st with rows := st.rows ++ [⟨st.nextId, a, de, cat, ty, td.date.getD st.now,
          st.now, st.now⟩], nextId := st.nextId + 1 }, ?_, by simp_all⟩
    simp [insert_transaction, ha, hde, hcat, hty, hmem]

/-! ## Rendering helpers shared by the reply formatters -/

/-- Round to the nearest integer, ties to even (Python's `ROUND_HALF_EVEN`,
used by `format` on `Decimal`s and by IEEE-754 rounding below). -/
def rne (q : ℚ) : ℤ :=
  if q - ⌊q⌋ < 1/2 then ⌊q⌋
  else if 1/2 < q - ⌊q⌋ then ⌊q⌋ + 1
  else if 2 ∣ ⌊q⌋ then ⌊q⌋ else ⌊q⌋ + 1

/-- Two decimal digits, zero-padded. -/
def pad2 (n : ℕ) : String :=
  if n < 10 then "0" ++ toString n else toString n

/-- Python `f"{d:.2f}"` on a `Decimal` (or float) of value `q`: round
half-even at two decimals and render with a sign before the digits. -/
def fmtQ2 (q : ℚ) : String :=
  (if rne (q * 100) < 0 then "-" else "") ++
    toString ((rne (q * 100)).natAbs / 100) ++ "." ++ pad2 ((rne (q * 100)).natAbs % 100)

/-- Python `f"{v:.2f}"` on a driver value (`None` would raise a TypeError,
but every use is guarded: the `..._dollars` keys below always hold a
`Decimal`). -/
def valFmt2 : Value → String
  | .int n => fmtQ2 (n : ℚ)
  | .dec q => fmtQ2 q
  | .vnull => "None"

/-- Python `str(v)` on a driver value. -/
def pyStrValue : Value → String
  | .int n => toString n
  | .dec q => fmtQ2 q
  | .vnull => "None"

/-! ## Conversation Orchestrator, keyword agent — src/financial_agent_new.py -/

/-- `try: body except Exception as e: return label + str(e)` — the tool
boundary converts any failure into an ordinary reply string. -/
def catchWith (label : String) : Except String String → String
  | .ok s => s
  | .error e => label ++ e

def noTransactionsMsg : String := "No transactions found matching your query."

namespace AgentNew

/-- The aggregation pieces of the reply: one `"<Label>: <value>"` string per
present aggregation key, checked in the fixed order Total, Count, Average. -/
def aggResponseParts (d : List (String × Value)) : List String :=
  (match lookupKey d "total_amount_dollars" with
   | some v => ["Total: $" ++ valFmt2 v]
   | none => []) ++
  (match lookupKey d "count" with
   | some v => ["Count: " ++ pyStrValue v ++ " transactions"]
   | none => []) ++
  (match lookupKey d "average_amount_dollars" with
   | some v => ["Average: $" ++ valFmt2 v]
   | none => [])

/-- One listed transaction: `"<n>. $<amount> - <description> (<category>)"`,
using the row's `amount_dollars` annotation. -/
def formatTransactionLine (i : ℕ) (t : TxRecord) : String :=
  toString i ++ ". $" ++ fmtQ2 t.amount_dollars ++ " - " ++ t.description ++
    " (" ++ t.category ++ ")"

/-- The `response_parts` list built for a non-empty transaction list: a
header, the first five rows (1-based), and a remainder note when more than
five matched. -/
def listResponseParts (l : List TxRecord) : List String :=
  ("Found " ++ toString l.length ++ " transactions:") ::
    ((l.take 5).enum.map (fun p => formatTransactionLine (p.1 + 1) p.2) ++
      (if 5 < l.length then ["... and " ++ toString (l.length - 5) ++ " more transactions"]
       else []))

/-- `any(key in results for key in ["total_amount", "count", "average_amount"])`. -/
def hasAggKey (d : List (String × Value)) : Bool :=
  ["total_amount", "count", "average_amount"].any (fun k => (lookupKey d k).isSome)

/-- The response formatting of `query_transactions_tool`
(src/financial_agent_new.py): aggregation results are joined with `" | "`
behind a `"Query results: "` header; otherwise an empty list yields the
no-transactions message and a non-empty one the joined `response_parts`.
(The `.aggs`-without-alias-key branch is unreachable for outputs of
`query_transactions`: an aggregate row always carries an alias key.) -/
def formatQueryResults : QueryResult → String
  | .aggs d =>
      if hasAggKey d then "Query results: " ++ String.intercalate " | " (aggResponseParts d)
      else noTransactionsMsg
  | .rows l =>
      if l.isEmpty then noTransactionsMsg
      else String.intercalate "\n" (listResponseParts l)

/-- `query_transactions_tool` (src/financial_agent_new.py): parse, query,
format — any exception becomes an `"Error querying transactions: ..."`
reply. -/
def query_transactions_tool (query : String) (st : DBState) : String :=
  catchWith "Error querying transactions: " (do
    let results ← query_transactions (QuerySpec.toParams (_parse_query query)) st
    pure (formatQueryResults results))

end AgentNew

/-! ## Conversation Orchestrator, SQL agent — src/financial_agent.py -/

namespace AgentSql

/-- The body of `insert_transaction_tool` (src/financial_agent.py) before its
`except` clause: parse the date (`strptime`, whose outcome is passed in),
validate the amount, convert to cents, insert through
`TransactionRepository.insert_transaction` (every field supplied), and build
the success message. -/
def insertToolBody (amount : ℚ) (description category transaction_type : String)
    (dateParse : Except String ℤ) (st : DBState) : Except String String := do
  let transaction_date ← dateParse
  let _ ← validate_amount (.dec amount)
  let amount_cents := dollars_to_cents amount
  let (rec, _) ← insert_transaction
    ⟨some amount_cents, some description, some category, some transaction_type,
      some transaction_date⟩ st
  pure ("Successfully recorded " ++ transaction_type ++ " of $" ++ fmtQ2 amount ++
    " for " ++ description ++ " in category '" ++ category ++ "'. Transaction ID: " ++
    toString rec.id)

/-- `insert_transaction_tool`: the body with its `except` clause. -/
def insert_transaction_tool (amount : ℚ) (description category transaction_type : String)
    (dateParse : Except String ℤ) (st : DBState) : String :=
  catchWith "Error inserting transaction: "
    (insertToolBody amount description category transaction_type dateParse st)

/-- Python `str(...)` of `execute_sql`'s list of row dicts. -/
def pyStrRows (rows : List (List (String × Value))) : String :=
  "[" ++ String.intercalate ", "
    (rows.map (fun r => "\x7b" ++ String.intercalate ", "
      (r.map (fun p => "'" ++ p.1 ++ "': " ++ pyStrValue p.2)) ++ "\x7d")) ++ "]"

/-- The body of `query_transactions_tool` (src/financial_agent.py) before its
`except` clause: the LLM call's outcome, `.strip()`, raw SQL execution's
outcome, `str(results)`. -/
def queryToolBody (llmOutcome : Except String String)
    (execOutcome : String → Except String (List (List (String × Value)))) :
    Except String String := do
  let response ← llmOutcome
  let sql_query := response.trim
  let results ← execOutcome sql_query
  pure (pyStrRows results)

/-- `query_transactions_tool`: the body with its `except` clause. -/
def query_transactions_tool (llmOutcome : Except String String)
    (execOutcome : String → Except String (List (List (String × Value)))) : String :=
  catchWith "Error querying transactions: " (queryToolBody llmOutcome execOutcome)

/-- `FinancialAgent.chat`: returns the agent result's `"output"` on success;
any exception becomes an `"Error processing your request: ..."` reply. -/
def chat (agentOutcome : Except String String) : String :=
  catchWith "Error processing your request: " agentOutcome

end AgentSql

/-- C8. The query reply formatter: when aggregations were computed, the
reply joins one `"<Label>: <value>"` piece per present aggregation with a
separator; an empty transaction list yields the no-transactions message; a
non-empty list of `n` transactions is rendered as a header line followed by
exactly `min n 5` formatted transaction lines (the i-th line formatting the
i-th transaction, 1-based) and a trailing remainder note exactly when
`n > 5`. -/
theorem query_reply_formatting (d : List (String × Value)) (l : List TxRecord)
    (hl : l ≠ []) :
    (AgentNew.hasAggKey d = true →
      AgentNew.formatQueryResults (.aggs d) =
        "Query results: " ++ String.intercalate " | " (AgentNew.aggResponseParts d)) ∧
    AgentNew.formatQueryResults (.rows []) = "No transactions found matching your query." ∧
    ∃ lines : List String,
      AgentNew.formatQueryResults (.rows l) =
        String.intercalate "\n"
          (("Found " ++ toString l.length ++ " transactions:") ::
            (lines ++ (if 5 < l.length then
              ["... and " ++ toString (l.length - 5) ++ " more transactions"] else []))) ∧
      lines.length = min l.length 5 ∧
      ∀ i, i < lines.length →
        lines[i]? = (l[i]?).map (AgentNew.formatTransactionLine (i + 1)) := by
  refine ⟨?_, rfl, ?_⟩
  · intro h
    simp [AgentNew.formatQueryResults, h]
  · refine ⟨(l.take 5).enum.map (fun p => AgentNew.formatTransactionLine (p.1 + 1) p.2),
      ?_, ?_, ?_⟩
    · have hne : l.isEmpty = false := by
        cases l
        · exact absurd rfl hl
        · rfl
      simp [AgentNew.formatQueryResults, hne, AgentNew.listResponseParts]
    · rw [List.length_map, List.enum_length, List.length_take, Nat.min_comm]
    · intro i hi
      rw [List.length_map, List.enum_length, List.length_take] at hi
      have hi5 : i < 5 := lt_of_lt_of_le hi (Nat.min_le_left _ _)
      have hil : i < l.length := lt_of_lt_of_le hi (Nat.min_le_right _ _)
      rw [List.getElem?_map, List.getElem?_enum, List.getElem?_take, if_pos hi5,
        List.getElem?_eq_getElem hil]
      simp

/-- Witness for C8 with one transaction. -/
theorem query_reply_formatting_witness :
    ([(⟨⟨1, 5000, "Groceries", "groceries", "expense", 0, 0, 0⟩, 50⟩ : TxRecord)] ≠ []) ∧
    (AgentNew.hasAggKey [] = true →
      AgentNew.formatQueryResults (.aggs []) =
        "Query results: " ++ String.intercalate " | " (AgentNew.aggResponseParts [])) ∧
    AgentNew.formatQueryResults (.rows []) = "No transactions found matching your query." ∧
    ∃ lines : List String,
      AgentNew.formatQueryResults
          (.rows [⟨⟨1, 5000, "Groceries", "groceries", "expense", 0, 0, 0⟩, 50⟩]) =
        String.intercalate "\n"
          (("Found " ++
              toString ([(⟨⟨1, 5000, "Groceries", "groceries", "expense", 0, 0, 0⟩, 50⟩ :
                TxRecord)].length) ++ " transactions:") ::
            (lines ++ (if 5 < [(⟨⟨1, 5000, "Groceries", "groceries", "expense", 0, 0, 0⟩,
                50⟩ : TxRecord)].length then
              ["... and " ++
                toString ([(⟨⟨1, 5000, "Groceries", "groceries", "expense", 0, 0, 0⟩,
                  50⟩ : TxRecord)].length - 5) ++ " more transactions"] else []))) ∧
      lines.length =
        min [(⟨⟨1, 5000, "Groceries", "groceries", "expense", 0, 0, 0⟩, 50⟩ :
          TxRecord)].length 5 ∧
      ∀ i, i < lines.length →
        lines[i]? =
          ([(⟨⟨1, 5000, "Groceries", "groceries", "expense", 0, 0, 0⟩, 50⟩ :
            TxRecord)][i]?).map (AgentNew.formatTransactionLine (i + 1)) :=
  ⟨List.cons_ne_nil _ _,
    query_reply_formatting []
      [⟨⟨1, 5000, "Groceries", "groceries", "expense", 0, 0, 0⟩, 50⟩]
      (List.cons_ne_nil _ _)⟩

/-- C9. Every failure inside a tool body (currency validation, store insert,
LLM call, raw query execution) is caught at the tool boundary and converted
into a natural-language error reply; likewise `chat` converts any failure of
the agent run into an error reply and returns the agent output unchanged on
success — no failure propagates out of the orchestrator. -/
theorem tool_failures_become_replies (amount : ℚ)
    (description category transaction_type : String) (dateParse : Except String ℤ)
    (st : DBState) (llmOutcome : Except String String)
    (execOutcome : String → Except String (List (List (String × Value))))
    (e s : String) :
    (AgentSql.insertToolBody amount description category transaction_type dateParse st
        = .error e →
      AgentSql.insert_transaction_tool amount description category transaction_type
        dateParse st = "Error inserting transaction: " ++ e) ∧
    (AgentSql.queryToolBody llmOutcome execOutcome = .error e →
      AgentSql.query_transactions_tool llmOutcome execOutcome =
        "Error querying transactions: " ++ e) ∧
    AgentSql.chat (.error e) = "Error processing your request: " ++ e ∧
    AgentSql.chat (.ok s) = s := by
  refine ⟨?_, ?_, rfl, rfl⟩
  · intro h
    unfold AgentSql.insert_transaction_tool
    rw [h]
    rfl
  · intro h
    unfold AgentSql.query_transactions_tool
    rw [h]
    rfl

/-- Witness for C9: a validation failure (`amount = -0.01`) inside the insert
tool surfaces as an error reply. -/
theorem tool_failures_become_replies_witness :
    AgentSql.insert_transaction_tool (-1/100) "coffee" "food" "expense" (.ok 0)
        ⟨[], 1, 0, 0, 0⟩ =
      "Error inserting transaction: Invalid amount: Amount cannot be negative" := by
  have h1 : validate_amount (.dec (-1/100)) =
      .error "Invalid amount: Amount cannot be negative" := by
    simp [validate_amount, centsOfNumber, dollars_to_cents_neg_cent]
  have hbody : AgentSql.insertToolBody (-1/100) "coffee" "food" "expense" (.ok 0)
      ⟨[], 1, 0, 0, 0⟩ = .error "Invalid amount: Amount cannot be negative" := by
    unfold AgentSql.insertToolBody
    rw [h1]
    rfl
  exact (tool_failures_become_replies (-1/100) "coffee" "food" "expense" (.ok 0)
    ⟨[], 1, 0, 0, 0⟩ (.ok "") (fun _ => .ok []) "Invalid amount: Amount cannot be negative"
    "").1 hbody

/-! ## IEEE-754 binary64 model and the HTTP transaction-creation endpoint —
src/routes/transaction_routes.py -/

/-- Round a real (rational) value to the nearest IEEE-754 binary64 value:
round the 53-bit significand to nearest, ties to even. Subnormals and
overflow are outside the magnitude range exercised here and are not
modelled. -/
def floatRound (q : ℚ) : ℚ :=
  if q = 0 then 0
  else
    (if q < 0 then -1 else 1) *
      (rne (|q| * 2 ^ ((52 : ℤ) - Int.log 2 |q|)) : ℚ) * 2 ^ (Int.log 2 |q| - 52)

/-- Binary64 multiplication: the exact product, rounded. -/
def fmul (x y : ℚ) : ℚ := floatRound (x * y)

/-- `TransactionRepository.insert_transaction` (src/repositories/
transaction_repository.py): no validation of its own — every field is
supplied by signature, `date` defaults to now — but the insert still goes
through the table's type CHECK constraint. -/
def TransactionRepository_insert (amount : ℤ) (description category ty : String)
    (date : Option ℤ) (st : DBState) : Except String (Transaction × DBState) :=
  if ty ∈ transaction_types then
    .ok (⟨st.nextId, amount, description, category, ty, date.getD st.now, st.now, st.now⟩,
         ⟨st.rows ++ [⟨st.nextId, amount, description, category, ty, date.getD st.now,
            st.now, st.now⟩], st.nextId + 1, st.now, st.monthStart, st.monthNext⟩)
  else .error checkViolationMsg

/-- The body of a `POST /transaction/` request; `amount` is the JSON
number's decimal value, which Python's parser turns into the nearest
binary64; `date` is the pre-parsed optional ISO date. -/
structure TransactionCreateRequest where
  amount : ℚ
  description : String
  category : String
  type : String
  date : Option ℤ
deriving DecidableEq

/-- `create_transaction` (src/routes/transaction_routes.py): converts the
request amount with `int(request.amount * 100)` — a binary64 product
truncated toward zero — and inserts through the repository. No
`validate_amount` call occurs anywhere on this path. -/
def create_transaction (req : TransactionCreateRequest) (st : DBState) :
    Except String (Transaction × DBState) :=
  TransactionRepository_insert (truncQ (fmul (floatRound req.amount) 100))
    req.description req.category req.type req.date st

/-! ### Evaluation lemmas for the binary64 model -/

theorem intLog2_eq {r : ℚ} (e : ℤ) (h0 : 0 < r) (h1 : (2:ℚ) ^ e ≤ r)
    (h2 : r < 2 ^ (e + 1)) : Int.log 2 r = e := by
  have hb : 1 < 2 := by norm_num
  have hle : e ≤ Int.log 2 r := (Int.zpow_le_iff_le_log hb h0).mp (by exact_mod_cast h1)
  have hlt : Int.log 2 r < e + 1 := (Int.lt_zpow_iff_log_lt hb h0).mp (by exact_mod_cast h2)
  omega

theorem rne_of_floor_lt (q : ℚ) (n : ℤ) (hfl : ⌊q⌋ = n) (h : q - (n : ℚ) < 1/2) :
    rne q = n := by
  unfold rne
  rw [hfl, if_pos h]

theorem rne_of_floor_gt (q : ℚ) (n : ℤ) (hfl : ⌊q⌋ = n) (h : 1/2 < q - (n : ℚ)) :
    rne q = n + 1 := by
  unfold rne
  rw [hfl, if_neg (by linarith), if_pos h]

theorem floatRound_pos_eval (q : ℚ) (e m : ℤ) (hq : 0 < q)
    (hlog : Int.log 2 q = e) (hm : rne (q * 2 ^ ((52:ℤ) - e)) = m) :
    floatRound q = (m : ℚ) * 2 ^ (e - 52) := by
  unfold floatRound
  rw [if_neg (ne_of_gt hq), abs_of_pos hq, hlog, hm, if_neg (by linarith : ¬ q < 0),
    one_mul]

theorem floatRound_neg_eval (q : ℚ) (e m : ℤ) (hq : q < 0)
    (hlog : Int.log 2 (-q) = e) (hm : rne (-q * 2 ^ ((52:ℤ) - e)) = m) :
    floatRound q = -((m : ℚ) * 2 ^ (e - 52)) := by
  unfold floatRound
  rw [if_neg (ne_of_lt hq), abs_of_neg hq, hlog, hm, if_pos hq]
  ring

/-- The binary64 nearest to 0.29 is 5224175567749775 / 2⁵⁴ (≈
0.28999999999999998). -/
theorem floatRound_029 : floatRound (29/100) = 5224175567749775 / 2 ^ 54 := by
  have h1 : Int.log 2 ((29:ℚ)/100) = -2 := by
    apply intLog2_eq <;> norm_num
  have h2 : rne ((29:ℚ)/100 * 2 ^ ((52:ℤ) - (-2))) = 5224175567749775 := by
    apply rne_of_floor_lt
    · rw [Int.floor_eq_iff]
      norm_num
    · norm_num
  rw [floatRound_pos_eval ((29:ℚ)/100) (-2) 5224175567749775 (by norm_num) h1 h2]
  norm_num

/-- In binary64, `0.29 * 100` rounds to 8162774324609023 / 2⁴⁸ (≈
28.999999999999996). -/
theorem fmul_029_100 : fmul (5224175567749775 / 2 ^ 54) 100 = 8162774324609023 / 2 ^ 48 := by
  unfold fmul
  rw [show ((5224175567749775 : ℚ) / 2 ^ 54) * 100 = 522417556774977500 / 2 ^ 54 from by
    norm_num]
  have h1 : Int.log 2 ((522417556774977500:ℚ) / 2 ^ 54) = 4 := by
    apply intLog2_eq <;> norm_num
  have h2 : rne ((522417556774977500:ℚ) / 2 ^ 54 * 2 ^ ((52:ℤ) - 4)) = 8162774324609023 := by
    apply rne_of_floor_lt
    · rw [Int.floor_eq_iff]
      norm_num
    · norm_num
  rw [floatRound_pos_eval _ 4 8162774324609023 (by norm_num) h1 h2]
  norm_num

/-- The endpoint's conversion truncates 0.29 dollars to 28 cents. -/
theorem endpoint_cents_029 : truncQ (fmul (floatRound (29/100)) 100) = 28 := by
  rw [floatRound_029, fmul_029_100]
  unfold truncQ
  rw [if_pos (by norm_num), Int.floor_eq_iff]
  norm_num

/-- The binary64 nearest to -0.01 is -(5764607523034235 / 2⁵⁹). -/
theorem floatRound_neg001 : floatRound (-1/100) = -(5764607523034235 / 2 ^ 59) := by
  have hrw : -((-1:ℚ)/100) = 1/100 := by norm_num
  have h1 : Int.log 2 (-((-1:ℚ)/100)) = -7 := by
    rw [hrw]
    apply intLog2_eq <;> norm_num
  have h2 : rne (-((-1:ℚ)/100) * 2 ^ ((52:ℤ) - (-7))) = 5764607523034235 := by
    rw [hrw]
    have h := rne_of_floor_gt ((1:ℚ)/100 * 2 ^ ((52:ℤ) - (-7))) 5764607523034234
      (by rw [Int.floor_eq_iff]; norm_num) (by norm_num)
    rw [h]
    norm_num
  rw [floatRound_neg_eval ((-1:ℚ)/100) (-7) 5764607523034235 (by norm_num) h1 h2]
  norm_num

/-- In binary64, `-0.01 * 100` rounds to exactly -1. -/
theorem fmul_neg001_100 : fmul (-(5764607523034235 / 2 ^ 59)) 100 = -1 := by
  unfold fmul
  rw [show (-((5764607523034235:ℚ) / 2 ^ 59)) * 100 = -(576460752303423500 / 2 ^ 59) from by
    norm_num]
  have hrw : -(-((576460752303423500:ℚ) / 2 ^ 59)) = 576460752303423500 / 2 ^ 59 := by
    norm_num
  have h1 : Int.log 2 (-(-((576460752303423500:ℚ) / 2 ^ 59))) = 0 := by
    rw [hrw]
    apply intLog2_eq <;> norm_num
  have h2 : rne (-(-((576460752303423500:ℚ) / 2 ^ 59)) * 2 ^ ((52:ℤ) - 0)) =
      4503599627370496 := by
    rw [hrw]
    apply rne_of_floor_lt
    · rw [Int.floor_eq_iff]
      norm_num
    · norm_num
  rw [floatRound_neg_eval (-((576460752303423500:ℚ) / 2 ^ 59)) 0 4503599627370496
    (by norm_num) h1 h2]
  norm_num

/-- The endpoint's conversion of -0.01 dollars yields -1 cent. -/
theorem endpoint_cents_neg001 : truncQ (fmul (floatRound (-1/100)) 100) = -1 := by
  rw [floatRound_neg001, fmul_neg001_100]
  unfold truncQ
  rw [if_neg (by norm_num), Int.ceil_eq_iff]
  norm_num

/-- 20000000 (= $2·10⁷) is exactly representable in binary64. -/
theorem floatRound_2e7 : floatRound 20000000 = 20000000 := by
  have h1 : Int.log 2 (20000000:ℚ) = 24 := by
    apply intLog2_eq <;> norm_num
  have h2 : rne ((20000000:ℚ) * 2 ^ ((52:ℤ) - 24)) = 5368709120000000 := by
    apply rne_of_floor_lt
    · rw [Int.floor_eq_iff]
      norm_num
    · norm_num
  rw [floatRound_pos_eval 20000000 24 5368709120000000 (by norm_num) h1 h2]
  norm_num

/-- In binary64, `20000000 * 100` is exactly 2000000000. -/
theorem fmul_2e7_100 : fmul (20000000:ℚ) 100 = 2000000000 := by
  unfold fmul
  rw [show ((20000000:ℚ) * 100) = 2000000000 from by norm_num]
  have h1 : Int.log 2 (2000000000:ℚ) = 30 := by
    apply intLog2_eq <;> norm_num
  have h2 : rne ((2000000000:ℚ) * 2 ^ ((52:ℤ) - 30)) = 8388608000000000 := by
    apply rne_of_floor_lt
    · rw [Int.floor_eq_iff]
      norm_num
    · norm_num
  rw [floatRound_pos_eval 2000000000 30 8388608000000000 (by norm_num) h1 h2]
  norm_num

/-- The endpoint's conversion of 20000000 dollars yields 2000000000 cents. -/
theorem endpoint_cents_2e7 : truncQ (fmul (floatRound 20000000) 100) = 2000000000 := by
  rw [floatRound_2e7, fmul_2e7_100]
  unfold truncQ
  rw [if_pos (by norm_num), Int.floor_eq_iff]
  norm_num

/-- C10. The HTTP endpoint's `int(request.amount * 100)` conversion is a
truncated binary-float product, not the codec's rounding: on the
two-fractional-digit input 0.29 it stores 28 cents where
`dollars_to_cents` yields 29. And since the endpoint never calls
`validate_amount`, a negative amount (-0.01, stored as -1 cent) and an
over-cap amount (20000000 dollars, stored as 2000000000 cents, above the
999999999 ceiling) both insert successfully even though `validate_amount`
rejects them. -/
theorem endpoint_conversion_diverges_and_skips_validation :
    truncQ (fmul (floatRound (29/100)) 100) = 28 ∧
    dollars_to_cents (29/100) = 29 ∧
    truncQ (fmul (floatRound (29/100)) 100) ≠ dollars_to_cents (29/100) ∧
    (∃ t st', create_transaction ⟨-1/100, "refund", "misc", "expense", none⟩
        ⟨[], 1, 0, 0, 0⟩ = .ok (t, st') ∧ t.amount = -1 ∧ t.amount < 0) ∧
    isOkB (validate_amount (.dec (-1/100))) = false ∧
    (∃ t st', create_transaction ⟨20000000, "windfall", "misc", "income", none⟩
        ⟨[], 1, 0, 0, 0⟩ = .ok (t, st') ∧ t.amount = 2000000000 ∧ 999999999 < t.amount) ∧
    isOkB (validate_amount (.int 2000000000)) = false := by
  have h29 : dollars_to_cents (29/100) = 29 := by
    have h := dollars_to_cents_hundredths 29
    push_cast at h
    exact h
  have hval : isOkB (validate_amount (.dec (-1/100))) = false := by
    simp [validate_amount, centsOfNumber, dollars_to_cents_neg_cent, isOkB]
  refine ⟨endpoint_cents_029, h29, by rw [endpoint_cents_029, h29]; norm_num, ?_, hval,
    ?_, rfl⟩
  · refine ⟨⟨1, -1, "refund", "misc", "expense", 0, 0, 0⟩,
      ⟨[⟨1, -1, "refund", "misc", "expense", 0, 0, 0⟩], 2, 0, 0, 0⟩, ?_, rfl, by norm_num⟩
    unfold create_transaction
    rw [endpoint_cents_neg001]
    rfl
  · refine ⟨⟨1, 2000000000, "windfall", "misc", "income", 0, 0, 0⟩,
      ⟨[⟨1, 2000000000, "windfall", "misc", "income", 0, 0, 0⟩], 2, 0, 0, 0⟩, ?_, rfl,
      by norm_num⟩
    unfold create_transaction
    rw [endpoint_cents_2e7]
    rfl

end Daria
